import Mathlib

/-!
# Verification of the challenge-markdown build scripts

Shallow embedding of the Markdown section splitter and the retrying
remote-call loops found in `scripts/build-code-exercises.py`,
`scripts/build_code_challenges.py`, `scripts/generate_solutions.py` and
`scripts/correct_sample_code.py`.

Strings are modelled as `List Char`.  A document is viewed through its
list of `'\n'`-separated lines, which is exactly the granularity at which
the scripts' `re.MULTILINE` regexes operate: the split pattern
`^## (Challenge \d+: .+)` can only ever match a whole line (the `.`
class excludes newlines and `.+` is greedy), so `re.split` classifies
lines.  Python's `\d` is modelled as the ASCII digits, which is faithful
for every ASCII document.
-/

/-- Python `str.strip()` whitespace set (ASCII part). -/
def pyWhitespace (c : Char) : Bool :=
  c = ' ' || c = '\t' || c = '\n' || c = '\r' || c.toNat = 11 || c.toNat = 12

/-- Python `s.strip()`: remove leading and trailing whitespace. -/
def strip (l : List Char) : List Char :=
  ((l.dropWhile pyWhitespace).reverse.dropWhile pyWhitespace).reverse

/-- The literal `"## Challenge "` opening the split pattern. -/
def hdChallengeLit : List Char := "## Challenge ".toList

/-- The literal `": "` following the digits in the split pattern. -/
def colonSpaceLit : List Char := ": ".toList

/-- The literal `"## "` of the `^## ` line pattern / lookahead. -/
def hhLit : List Char := "## ".toList

/-- Four spaces of indentation used when wrapping solutions. -/
def indentLit : List Char := "    ".toList

/-- The `"\n\n"` separator between wrapped solutions. -/
def blankSepLit : List Char := "\n\n".toList

/-- Split a string into its `'\n'`-separated lines (like the line view of
`re.MULTILINE`): `n` newline characters yield `n + 1` lines. -/
def splitLinesL : List Char → List (List Char)
  | [] => [[]]
  | c :: rest =>
    let r := splitLinesL rest
    if c = '\n' then [] :: r
    else
      match r with
      | [] => [[c]]
      | l :: ls => (c :: l) :: ls

/-- Rejoin lines with `'\n'`; inverse of `splitLinesL`. -/
def joinLinesL (ls : List (List Char)) : List Char :=
  List.intercalate ['\n'] ls

/-- Python `s.split(pat, maxsplit=1)` / `re.search` of a literal pattern:
split `s` at the FIRST occurrence of `pat`, returning the part strictly
before it and the part strictly after it, or `none` when `pat` does not
occur in `s`. -/
def splitOnFirst? (pat : List Char) : List Char → Option (List Char × List Char)
  | [] => if List.isPrefixOf pat [] then some ([], []) else none
  | c :: rest =>
    if List.isPrefixOf pat (c :: rest) then some ([], (c :: rest).drop pat.length)
    else
      match splitOnFirst? pat rest with
      | some (b, a) => some (c :: b, a)
      | none => none

/-- Python `pat in s` (substring containment). -/
def containsSub (pat s : List Char) : Bool :=
  (splitOnFirst? pat s).isSome

/-- Python `s.replace(pat, "")` for a non-empty `pat`: delete every
(left-to-right, non-overlapping) occurrence of `pat`.  Fuelled by the
length of `s`; each step consumes at least one character. -/
def replaceAllGo (pat : List Char) : Nat → List Char → List Char
  | _, [] => []
  | 0, s => s
  | fuel + 1, c :: rest =>
    if List.isPrefixOf pat (c :: rest) then
      replaceAllGo pat fuel ((c :: rest).drop pat.length)
    else
      c :: replaceAllGo pat fuel rest

/-- Python `s.replace(pat, "")` (the scripts only ever replace with `""`). -/
def replaceAll (pat s : List Char) : List Char :=
  if pat.isEmpty then s else replaceAllGo pat s.length s

/-- The capture of `^## (Challenge \d+: .+)` (`re.MULTILINE`) on one line:
`some` of the text after `"## "` when the line is
`"## Challenge " ++ digits ++ ": " ++ rest` with `digits` a non-empty
digit run and `rest` non-empty, else `none`.  (`\d+` greedy must take the
whole digit run: any shorter run leaves a digit where `:` is required.) -/
def challengeTitle? (line : List Char) : Option (List Char) :=
  if List.isPrefixOf hdChallengeLit line then
    let rest := line.drop 13
    let ds := rest.takeWhile Char.isDigit
    let after := rest.dropWhile Char.isDigit
    if ds.isEmpty then none
    else if List.isPrefixOf colonSpaceLit after then
      if (after.drop 2).isEmpty then none else some (line.drop 3)
    else none
  else none

/-- A line at which `re.split(r"^## (Challenge \d+: .+)", ..)` does not cut. -/
def noChallengeHd (line : List Char) : Bool :=
  (challengeTitle? line).isNone

/-- Model of `re.split(r"^## (Challenge \d+: .+)", content, flags=re.MULTILINE)`
paired up exactly as the scripts' `for i in range(1, len(challenges), 2)`
loop consumes it: the document (as lines) becomes the piece before the
first matching heading line and, per matching heading line, the pair of
its captured group and the lines strictly between it and the next
matching heading line (or the end). -/
def reSplitChallenge : List (List Char) → List (List Char) × List (List Char × List (List Char))
  | [] => ([], [])
  | l :: ls =>
    let r := reSplitChallenge ls
    match challengeTitle? l with
    | some t => ([], (t, r.1) :: r.2)
    | none => (l :: r.1, r.2)

/-- One parsed section: `{"title": .., "description": .., "code": ..}`. -/
structure ChallengeSection where
  title : List Char
  description : List Char
  code : List Char
deriving DecidableEq, Repr

/-- The literal `"```python"` that both scripts split a body on. -/
def pyFenceOpenL : List Char := "```python".toList

/-- The literal `"```"` closing delimiter searched by `re.search(r"(.*?)```", ..)`. -/
def fenceCloseL : List Char := "```".toList

/-- Shared by both `extract_challenges_from_markdown` implementations
(identical lines in both sources):
```
code = ""
if len(parts) > 1:
    code_match = re.search(r"(.*?)```", parts[1], re.DOTALL)
    if code_match:
        code = code_match.group(1).strip()
```
`re.search(r"(.*?)```", s, re.DOTALL)` matches iff `s` contains `"```"`,
and its lazy group is everything strictly before the first occurrence. -/
def codeFromTail (tail? : Option (List Char)) : List Char :=
  match tail? with
  | none => []
  | some tail =>
    match splitOnFirst? fenceCloseL tail with
    | some (c, _) => strip c
    | none => []

namespace BuildCodeExercises

/-- Loop body of `extract_challenges_from_markdown` in
`scripts/build-code-exercises.py` (lines 15–27) on one stripped title and
stripped body: `parts = re.split(r"```python", body, maxsplit=1)`,
`description = parts[0].strip()`, and the shared code extraction. -/
def exSection (title body : List Char) : ChallengeSection :=
  match splitOnFirst? pyFenceOpenL body with
  | some (before, after) =>
      { title := title, description := strip before,
        code := codeFromTail (some after) }
  | none =>
      { title := title, description := strip body,
        code := codeFromTail none }

/-- Function `extract_challenges_from_markdown` from
`scripts/build-code-exercises.py` (lines 8–29). -/
def extract_challenges_from_markdown (content : List Char) :
    List Char × List ChallengeSection :=
  let r := reSplitChallenge (splitLinesL content)
  (strip (joinLinesL r.1),
   r.2.map (fun s => exSection (strip s.1) (strip (joinLinesL s.2))))

end BuildCodeExercises

namespace BuildCodeChallenges

/-- Loop body of `extract_challenges_from_markdown` in
`scripts/build_code_challenges.py` (lines 15–28) on one stripped title and
stripped body: identical code extraction, but
`description = body.replace(f"\n```python\n{code}\n```\n", "").strip()`. -/
def chSection (title body : List Char) : ChallengeSection :=
  let code :=
    match splitOnFirst? pyFenceOpenL body with
    | some (_, after) => codeFromTail (some after)
    | none => codeFromTail none
  let needle :=
    '\n' :: pyFenceOpenL ++ '\n' :: code ++ '\n' :: fenceCloseL ++ ['\n']
  { title := title,
    description := strip (replaceAll needle body),
    code := code }

/-- Function `extract_challenges_from_markdown` from
`scripts/build_code_challenges.py` (lines 8–30). -/
def extract_challenges_from_markdown (content : List Char) :
    List Char × List ChallengeSection :=
  let r := reSplitChallenge (splitLinesL content)
  (strip (joinLinesL r.1),
   r.2.map (fun s => chSection (strip s.1) (strip (joinLinesL s.2))))

end BuildCodeChallenges

namespace GenerateSolutions

/-- Model of `split_challenges` from `scripts/generate_solutions.py`
(lines 60–66), i.e. of
`re.findall(r"^## (.+?)\s*\n(.*?)(?=^## |\Z)", md_text, re.DOTALL | re.MULTILINE)`
followed by stripping both groups, on the line view of the document.
A match starts at any line beginning with `"## "`; the lazy `.+?` plus
`\s*\n` capture the rest of that line (trailing whitespace absorbed, so
after `.strip()` the title is `strip` of the rest of the line); the lazy
body group runs to the next line beginning with `"## "` or the end.
Text before the first such line is never part of any match and is
discarded.  The model is faithful for documents that end in a newline
and in which every `"## "`-prefixed line has a non-empty remainder
(otherwise the `re.DOTALL` lazy group can match across lines). -/
def hhStop (line : List Char) : Bool :=
  List.isPrefixOf hhLit line

/-- Function `split_challenges` on the line view: `(heading_text, challenge_content)`
pairs, both stripped. -/
def split_challenges : List (List Char) → List (List Char × List Char)
  | [] => []
  | l :: ls =>
    if hhStop l then
      (strip (l.drop 3),
       strip (joinLinesL (ls.takeWhile (fun l2 => !hhStop l2)))) ::
        split_challenges ls
    else split_challenges ls

end GenerateSolutions

/-! ## The retrying remote call

Each call to `client.models.generate_content` is modelled by the next
element of an environment-chosen list of `Attempt`s: either a response
carrying `response.text` (`none`/empty both falsy for `if not
response.text`, modelled as the empty string) or a raised
`errors.APIError` carrying optional `message` and `status` strings.
`time.sleep` is modelled by recording the slept duration; the random
`random.uniform(0, 1)` jitter is an input stream `jit`, indexed by the
value of the `attempt` counter at the sleep. -/

/-- One outcome of `client.models.generate_content`. -/
inductive Attempt where
  | success (text : List Char)
  | apiError (message status : Option (List Char))
deriving DecidableEq, Repr

/-- Final outcome of a retry loop. -/
inductive RunResult where
  | ok (text : List Char)
  | errEmpty
  | errApi (message status : Option (List Char))
  | errMaxRetries
  | exhausted
deriving DecidableEq, Repr

/-- A run of a retry loop: its outcome, the sleeps it performed in
order, and the final value of the `attempt` counter.  `exhausted` marks
a run that consumed the whole finite response list while still looping. -/
structure RetryTrace where
  result : RunResult
  sleeps : List ℚ
  finalAttempt : Nat
deriving DecidableEq, Repr

def token429 : List Char := "429".toList

/-- The scripts' rate-limit test
`(e.message and "429" in e.message) or (e.status and "429" in e.status)`
(in `generate_solutions.py` the parentheses are absent but `and` binds
tighter than `or`, so the condition is the same).  A `None` or empty
field is falsy. -/
def is429 (message status : Option (List Char)) : Bool :=
  (match message with
   | some m => !m.isEmpty && containsSub token429 m
   | none => false) ||
  (match status with
   | some s => !s.isEmpty && containsSub token429 s
   | none => false)

/-- Delay `min(initial_delay * (2 ** attempt), max_delay) + random.uniform(0, 1)`
with `initial_delay = 5`, `max_delay = 60`. -/
def backoffDelay (attempt : Nat) (jitter : ℚ) : ℚ :=
  min ((5 : ℚ) * 2 ^ attempt) 60 + jitter

/-- Whether one attempt is a rate-limited (429) failure. -/
def isRateLimited : Attempt → Bool
  | .success _ => false
  | .apiError m s => is429 m s

namespace GenerateSolutions

/-- The `while True` loop of `generate_solution`
(`generate_solutions.py` lines 35–56): on a 429 error sleep
`backoffDelay` and increment `attempt`, with NO retry ceiling; on any
other `APIError` re-raise; on a response with falsy `text` raise a plain
`Exception` (not caught by the `except errors.APIError` clause). -/
def generateLoop (jit : Nat → ℚ) : Nat → List Attempt → RetryTrace
  | attempt, [] => ⟨.exhausted, [], attempt⟩
  | attempt, r :: rest =>
    match r with
    | .success text =>
      if text.isEmpty then ⟨.errEmpty, [], attempt⟩ else ⟨.ok text, [], attempt⟩
    | .apiError m s =>
      if is429 m s then
        let d := backoffDelay attempt (jit attempt)
        let t := generateLoop jit (attempt + 1) rest
        ⟨t.result, d :: t.sleeps, t.finalAttempt⟩
      else ⟨.errApi m s, [], attempt⟩

end GenerateSolutions

namespace CorrectSampleCode

/-- The `while True` loop of `correct_sample_code`
(`correct_sample_code.py` lines 39–61): same as `generateLoop`, except
that after sleeping and incrementing, `attempt >= max_retries` (10)
raises `Exception("Max retries reached for 429 errors")`. -/
def correctLoop (jit : Nat → ℚ) : Nat → List Attempt → RetryTrace
  | attempt, [] => ⟨.exhausted, [], attempt⟩
  | attempt, r :: rest =>
    match r with
    | .success text =>
      if text.isEmpty then ⟨.errEmpty, [], attempt⟩ else ⟨.ok text, [], attempt⟩
    | .apiError m s =>
      if is429 m s then
        let d := backoffDelay attempt (jit attempt)
        if attempt + 1 ≥ 10 then ⟨.errMaxRetries, [d], attempt + 1⟩
        else
          let t := correctLoop jit (attempt + 1) rest
          ⟨t.result, d :: t.sleeps, t.finalAttempt⟩
      else ⟨.errApi m s, [], attempt⟩

end CorrectSampleCode

namespace GenerateSolutions

/-- Python `s.splitlines()` for `'\n'`-separated text: like `splitLinesL`
but without a final empty piece after a trailing newline, and `[]` on
the empty string. -/
def pySplitlines (s : List Char) : List (List Char) :=
  let ls := splitLinesL s
  if ls.getLast? = some [] then ls.dropLast else ls

/-- From `generate_solutions.py` lines 90–92: wrap one solution in a
`pymdownx.details` block,
`f"??? solution \"{heading}\"\n"` followed by every line of the solution
indented by four spaces (blank-stripping lines replaced by `""`),
joined by `'\n'`. -/
def wrapSolution (heading solution : List Char) : List Char :=
  "??? solution \"".toList ++ heading ++ '"' :: '\n' ::
    joinLinesL ((pySplitlines solution).map (fun line =>
      if (strip line).isEmpty then [] else indentLit ++ line))

/-- From `generate_solutions.py` lines 84–87: one section's solution text —
the generated markdown, or, when `generate_solution` raised `e`, the
inline substitute `f"Failed to generate solution: {e}"`.  The outcome of
the remote call for a given section content is environment-chosen
(`gen`), `.inl` carrying `str(e)` of the raised exception. -/
def solutionText (gen : List Char → List Char ⊕ List Char) (content : List Char) :
    List Char :=
  match gen content with
  | .inl e => "Failed to generate solution: ".toList ++ e
  | .inr s => s

/-- The `for heading, content in challenges` loop of `main`
(`generate_solutions.py` lines 80–94): build `all_solutions` in order,
one wrapped entry per section, substituting the failure reason inline
when generation fails. -/
def buildSolutions (gen : List Char → List Char ⊕ List Char) :
    List (List Char × List Char) → List (List Char)
  | [] => []
  | (heading, content) :: rest =>
    wrapSolution heading (solutionText gen content) :: buildSolutions gen rest

/-- Processing of one markdown file by `main`
(`generate_solutions.py` lines 70–97), abstracted over the remote call:
if the solution file already exists the file is skipped (`continue`)
before any split or remote call — the solution file keeps its old
content and zero remote calls happen; otherwise the document is split,
one remote call is made per section, and the joined wrapped solutions
are written.  Returns (contents of the solution file afterwards, number
of `generate_solution` invocations). -/
def processMdFile (gen : List Char → List Char ⊕ List Char)
    (solExists : Bool) (oldSolution mdText : List Char) :
    List Char × Nat :=
  if solExists then (oldSolution, 0)
  else
    let challenges := split_challenges (splitLinesL mdText)
    (List.intercalate blankSepLit (buildSolutions gen challenges),
     challenges.length)

end GenerateSolutions

/-! ## Specification-side definitions

`sectionsFromSpec` restates the spec's splitting rule in its own words —
"a line matching the pattern starts a new section; text between one
match and the next (or end-of-document) is that section's raw body" —
to be compared with `reSplitChallenge`, which was transcribed from the
scripts' `re.split` call. -/

/-- The spec's splitting rule, literally: at each matching heading line,
a section whose raw body is the run of following non-matching lines. -/
def sectionsFromSpec : List (List Char) → List (List Char × List (List Char))
  | [] => []
  | l :: ls =>
    match challengeTitle? l with
    | some t => (t, ls.takeWhile noChallengeHd) :: sectionsFromSpec ls
    | none => sectionsFromSpec ls

/-! ## Concrete test documents -/

/-- The end-to-end document of spec §8.6 / claim C9. -/
def doc9 : List Char :=
  ("# Week 1\n## Challenge 1: Sum\nWrite a function that sums two numbers.\n" ++
   "```python\ndef solve(a, b): pass\n```\n").toList

/-- A document with a `## ` heading that does not match the
`Challenge \d+: ` pattern. -/
def docC3 : List Char := "intro\n## Notes\nsome text\n".toList

/-- A section body whose `"```python"` fence is never closed. -/
def docC10body : List Char := "desc here\n```python\ndef f(): pass".toList

/-- The expected header of `doc9`. -/
def week1Header : List Char := "# Week 1".toList

/-- The section the spec expects `doc9` to parse to. -/
def sec9 : ChallengeSection where
  title := "Challenge 1: Sum".toList
  description := "Write a function that sums two numbers.".toList
  code := "def solve(a, b): pass".toList

/-- The section `build_code_challenges.py` actually produces from `doc9`:
same title and code, but the description keeps the whole fenced block. -/
def sec9ch : ChallengeSection where
  title := "Challenge 1: Sum".toList
  description :=
    "Write a function that sums two numbers.\n```python\ndef solve(a, b): pass\n```".toList
  code := "def solve(a, b): pass".toList

/-- The non-heading first line of `docC3`. -/
def introLine : List Char := "intro".toList

/-- The heading text of the non-Challenge section of `docC3`. -/
def notesTitle : List Char := "Notes".toList

/-- The body of the non-Challenge section of `docC3`. -/
def notesBody : List Char := "some text".toList

/-- The part of `docC10body` strictly before its opening fence. -/
def beforeFenceC10 : List Char := "desc here\n".toList

/-- The part of `docC10body` strictly after its opening fence. -/
def afterFenceC10 : List Char := "\ndef f(): pass".toList

/-- A throwaway section title. -/
def titleT : List Char := "T".toList

/-- Concrete jitter stream: no jitter. -/
def jitZero : Nat → ℚ := fun _ => 0

/-- A concrete 429 error message. -/
def msg429 : List Char := "429 RESOURCE_EXHAUSTED".toList

/-- A concrete non-429 error message. -/
def msg500 : List Char := "500".toList

/-- A concrete rate-limited API error. -/
def rate429 : Attempt := .apiError (some msg429) none

/-- Concrete section headings and contents for the `genW` oracle. -/
def h1Lit : List Char := "H1".toList

/-- Second concrete heading. -/
def h2Lit : List Char := "H2".toList

/-- Third concrete heading. -/
def h3Lit : List Char := "H3".toList

/-- A section content on which `genW` succeeds. -/
def goodLit : List Char := "good".toList

/-- The section content on which `genW` fails. -/
def badLit : List Char := "bad".toList

/-- The error text `genW` fails with. -/
def boomLit : List Char := "boom".toList

/-- The solution text `genW` succeeds with. -/
def okLit : List Char := "ok".toList

/-- A concrete remote-call oracle that fails on one specific section. -/
def genW : List Char → List Char ⊕ List Char := fun c =>
  if c = badLit then Sum.inl boomLit else Sum.inr okLit

/-- Three concrete sections, the middle one failing under `genW`. -/
def secsW : List (List Char × List Char) :=
  [(h1Lit, goodLit), (h2Lit, badLit), (h3Lit, goodLit)]

/-! ## Helper lemmas -/

theorem sectionsFromSpec_titles (ls : List (List Char)) :
    (sectionsFromSpec ls).map Prod.fst = ls.filterMap challengeTitle? := by
  induction ls with
  | nil => rfl
  | cons l ls ih =>
    cases h : challengeTitle? l <;>
      simp [sectionsFromSpec, List.filterMap_cons, h, ih]

theorem reSplitChallenge_eq_spec (ls : List (List Char)) :
    reSplitChallenge ls = (ls.takeWhile noChallengeHd, sectionsFromSpec ls) := by
  induction ls with
  | nil => rfl
  | cons l ls ih =>
    cases h : challengeTitle? l <;>
      simp [reSplitChallenge, sectionsFromSpec, List.takeWhile_cons, noChallengeHd, h, ih]

theorem splitOnFirst?_eq_append {pat s b a : List Char}
    (h : splitOnFirst? pat s = some (b, a)) : s = b ++ pat ++ a := by
  induction s generalizing b a with
  | nil =>
    by_cases hp : List.isPrefixOf pat ([] : List Char)
    · have hpat : pat = [] := by simpa using hp
      simp only [splitOnFirst?, if_pos hp, Option.some.injEq, Prod.mk.injEq] at h
      simp [hpat, ← h.1, ← h.2]
    · simp [splitOnFirst?, hp] at h
  | cons c rest ih =>
    by_cases hp : List.isPrefixOf pat (c :: rest)
    · simp only [splitOnFirst?, if_pos hp, Option.some.injEq, Prod.mk.injEq] at h
      obtain ⟨t, ht⟩ := List.isPrefixOf_iff_prefix.mp hp
      rw [← h.1, ← h.2, ← ht]
      simp [List.drop_left]
    · cases hrec : splitOnFirst? pat rest with
      | none => simp [splitOnFirst?, hp, hrec] at h
      | some p =>
        obtain ⟨b', a'⟩ := p
        simp only [splitOnFirst?, if_neg hp, hrec, Option.some.injEq, Prod.mk.injEq] at h
        rw [← h.1, ← h.2]
        simp [ih hrec]

theorem containsSub_cons (pat : List Char) (c : Char) (rest : List Char) :
    containsSub pat (c :: rest) =
      ( List.isPrefixOf pat (c :: rest) || containsSub pat rest) := by
  by_cases hp : List.isPrefixOf pat (c :: rest)
  · simp [containsSub, splitOnFirst?, hp]
  · cases hrec : splitOnFirst? pat rest with
    | none => simp [containsSub, splitOnFirst?, hp, hrec]
    | some p => simp [containsSub, splitOnFirst?, hp, hrec]

theorem containsSub_iff (pat s : List Char) :
    containsSub pat s = true ↔ List.IsInfix pat s := by
  induction s with
  | nil => simp [containsSub, splitOnFirst?]
  | cons c rest ih =>
    rw [containsSub_cons]
    simp [List.infix_cons_iff, ← ih]

theorem strip_infix_self (l : List Char) : List.IsInfix (strip l) l := by
  unfold strip
  have h1 : List.IsSuffix (l.dropWhile pyWhitespace) l := List.dropWhile_suffix _
  have h2 : List.IsSuffix ((l.dropWhile pyWhitespace).reverse.dropWhile pyWhitespace)
      (l.dropWhile pyWhitespace).reverse := List.dropWhile_suffix _
  have h3 : List.IsPrefix (((l.dropWhile pyWhitespace).reverse.dropWhile pyWhitespace).reverse)
      (l.dropWhile pyWhitespace) := by
    have h3' := List.reverse_prefix.mpr h2
    rwa [List.reverse_reverse] at h3'
  exact List.IsInfix.trans ( List.IsPrefix.isInfix h3) ( List.IsSuffix.isInfix h1)

theorem containsSub_false_mono {pat s t : List Char} (hts : List.IsInfix t s)
    (h : containsSub pat s = false) : containsSub pat t = false := by
  by_contra hc
  have ht : List.IsInfix pat t := (containsSub_iff pat t).mp (by simpa using hc)
  have hs : containsSub pat s = true :=
    (containsSub_iff pat s).mpr ( List.IsInfix.trans ht hts)
  rw [hs] at h
  simp at h

theorem splitOnFirst?_before_clean {pat s b a : List Char} (hpat : pat ≠ [])
    (h : splitOnFirst? pat s = some (b, a)) : containsSub pat b = false := by
  induction s generalizing b a with
  | nil =>
    by_cases hp : List.isPrefixOf pat ([] : List Char)
    · exact absurd (by simpa using hp) hpat
    · simp [splitOnFirst?, hp] at h
  | cons c rest ih =>
    by_cases hp : List.isPrefixOf pat (c :: rest)
    · simp only [splitOnFirst?, if_pos hp, Option.some.injEq, Prod.mk.injEq] at h
      rw [← h.1]
      simp [containsSub, splitOnFirst?, hpat]
    · cases hrec : splitOnFirst? pat rest with
      | none => simp [splitOnFirst?, hp, hrec] at h
      | some p =>
        obtain ⟨b', a'⟩ := p
        simp only [splitOnFirst?, if_neg hp, hrec, Option.some.injEq, Prod.mk.injEq] at h
        rw [← h.1]
        rw [containsSub_cons]
        have h1 : containsSub pat b' = false := ih hrec
        have h2 : List.isPrefixOf pat (c :: b') = false := by
          by_contra hb
          have hb' : List.IsPrefix pat (c :: b') :=
            List.isPrefixOf_iff_prefix.mp (by simpa using hb)
          have hr : rest = b' ++ (pat ++ a') := by
            have := splitOnFirst?_eq_append hrec
            simpa [List.append_assoc] using this
          have hbr : List.IsPrefix (c :: b') (c :: rest) := ⟨pat ++ a', by simp [hr]⟩
          exact hp (List.isPrefixOf_iff_prefix.mpr ( List.IsPrefix.trans hb' hbr))
        simp [h1, h2]

theorem exSection_title (title body : List Char) :
    (BuildCodeExercises.exSection title body).title = title := by
  unfold BuildCodeExercises.exSection
  cases h : splitOnFirst? pyFenceOpenL body with
  | none => rfl
  | some p => obtain ⟨b, a⟩ := p; rfl

theorem chSection_title (title body : List Char) :
    (BuildCodeChallenges.chSection title body).title = title := rfl

theorem section_code_agree (title body : List Char) :
    (BuildCodeChallenges.chSection title body).code =
      (BuildCodeExercises.exSection title body).code := by
  unfold BuildCodeChallenges.chSection BuildCodeExercises.exSection
  cases h : splitOnFirst? pyFenceOpenL body with
  | none => rfl
  | some p => obtain ⟨b, a⟩ := p; rfl

theorem exSection_description_clean (title body : List Char) :
    containsSub pyFenceOpenL (BuildCodeExercises.exSection title body).description =
      false := by
  unfold BuildCodeExercises.exSection
  cases h : splitOnFirst? pyFenceOpenL body with
  | none =>
    simp only
    have hb : containsSub pyFenceOpenL body = false := by
      simp [containsSub, h]
    exact containsSub_false_mono (strip_infix_self body) hb
  | some p =>
    obtain ⟨before, after⟩ := p
    simp only
    exact containsSub_false_mono (strip_infix_self before)
      (splitOnFirst?_before_clean (by decide) h)

theorem split_challenges_headings (ls : List (List Char)) :
    (GenerateSolutions.split_challenges ls).map Prod.fst =
      (ls.filter GenerateSolutions.hhStop).map (fun l => strip (l.drop 3)) := by
  induction ls with
  | nil => rfl
  | cons l ls ih =>
    by_cases h : GenerateSolutions.hhStop l <;>
      simp [GenerateSolutions.split_challenges, List.filter_cons, h, ih]

theorem split_challenges_drop_head (ls pre : List (List Char))
    (hpre : ∀ l ∈ pre, GenerateSolutions.hhStop l = false) :
    GenerateSolutions.split_challenges (pre ++ ls) =
      GenerateSolutions.split_challenges ls := by
  induction pre with
  | nil => rfl
  | cons p ps ih =>
    have hp : GenerateSolutions.hhStop p = false := hpre p (List.mem_cons_self p ps)
    have ih' := ih (fun l hl => hpre l (List.mem_cons_of_mem p hl))
    simpa [GenerateSolutions.split_challenges, hp] using ih'

theorem generateLoop_all429 (jit : Nat → ℚ) (rs : List Attempt) (a : Nat)
    (hall : ∀ r ∈ rs, isRateLimited r = true) :
    GenerateSolutions.generateLoop jit a rs =
      ⟨.exhausted,
       (List.range rs.length).map (fun i => backoffDelay (a + i) (jit (a + i))),
       a + rs.length⟩ := by
  induction rs generalizing a with
  | nil => simp [GenerateSolutions.generateLoop]
  | cons r rest ih =>
    cases r with
    | success t =>
      have := hall (.success t) (List.mem_cons_self _ _)
      simp [isRateLimited] at this
    | apiError m s =>
      have h429 : is429 m s = true := by
        have := hall (.apiError m s) (List.mem_cons_self _ _)
        simpa [isRateLimited] using this
      have harith : ∀ i : Nat, a + 1 + i = a + (i + 1) := by omega
      simp only [GenerateSolutions.generateLoop, h429, if_true]
      rw [ih (a + 1) (fun r hr => hall r (List.mem_cons_of_mem _ hr))]
      simp [List.range_succ_eq_map, List.map_map, Function.comp,
        Nat.succ_eq_add_one, harith]

theorem correctLoop_all429 (jit : Nat → ℚ) (rs : List Attempt) (a : Nat)
    (ha : a < 10) (hall : ∀ r ∈ rs, isRateLimited r = true) :
    CorrectSampleCode.correctLoop jit a rs =
      ⟨(if rs.length < 10 - a then .exhausted else .errMaxRetries),
       (List.range (min rs.length (10 - a))).map
         (fun i => backoffDelay (a + i) (jit (a + i))),
       min (a + rs.length) 10⟩ := by
  induction rs generalizing a with
  | nil =>
    have h1 : (0 : Nat) < 10 - a := by omega
    have h2 : min (a + 0) 10 = a := by omega
    simp [CorrectSampleCode.correctLoop, h1, h2]
    omega
  | cons r rest ih =>
    cases r with
    | success t =>
      have := hall (.success t) (List.mem_cons_self _ _)
      simp [isRateLimited] at this
    | apiError m s =>
      have h429 : is429 m s = true := by
        have := hall (.apiError m s) (List.mem_cons_self _ _)
        simpa [isRateLimited] using this
      by_cases hc : a + 1 ≥ 10
      · have ha9 : a = 9 := by omega
        subst ha9
        have h1 : ¬ (rest.length + 1 < 10 - 9) := by omega
        have h2 : min (rest.length + 1) (10 - 9) = 1 := by omega
        have h3 : min (9 + (rest.length + 1)) 10 = 10 := by omega
        simp [CorrectSampleCode.correctLoop, h429, h1, h2, h3, List.range_succ]
      · have ha1 : a + 1 < 10 := by omega
        have harith : ∀ i : Nat, a + 1 + i = a + (i + 1) := by omega
        have hiff : rest.length < 9 - a ↔ rest.length + 1 < 10 - a := by omega
        have hmin : min (rest.length + 1) (10 - a) =
            min rest.length (9 - a) + 1 := by omega
        have hfin : min (a + 1 + rest.length) 10 =
            min (a + (rest.length + 1)) 10 := by omega
        simp only [CorrectSampleCode.correctLoop, h429, if_true, if_neg hc]
        rw [ih (a + 1) ha1 (fun r hr => hall r (List.mem_cons_of_mem _ hr))]
        simp [hiff, hmin, hfin, List.range_succ_eq_map, List.map_map, Function.comp,
          Nat.succ_eq_add_one, harith]

/-! ## Claims -/

/-- C1 (amended): for every document, both `extract_challenges_from_markdown`
implementations return exactly one section per line matching
`^## (Challenge \d+: .+)$`, in document order with the trimmed heading
texts as titles; and in `build-code-exercises.py` no section's
description contains the opening fence delimiter `"```python"` (the
description is the text strictly before the first fence).  The original
claim's description invariant FAILS for `build_code_challenges.py` — see
the counterexample. -/
theorem c1_section_count_order_and_clean_descriptions (content : List Char) :
    ((BuildCodeExercises.extract_challenges_from_markdown content).2.length =
        ((splitLinesL content).filterMap challengeTitle?).length ∧
      (BuildCodeChallenges.extract_challenges_from_markdown content).2.length =
        ((splitLinesL content).filterMap challengeTitle?).length) ∧
    ((BuildCodeExercises.extract_challenges_from_markdown content).2.map
        ChallengeSection.title =
      ((splitLinesL content).filterMap challengeTitle?).map strip ∧
      (BuildCodeChallenges.extract_challenges_from_markdown content).2.map
        ChallengeSection.title =
      ((splitLinesL content).filterMap challengeTitle?).map strip) ∧
    ∀ s ∈ (BuildCodeExercises.extract_challenges_from_markdown content).2,
      containsSub pyFenceOpenL s.description = false := by
  have hsplit := reSplitChallenge_eq_spec (splitLinesL content)
  have htitles := sectionsFromSpec_titles (splitLinesL content)
  refine ⟨⟨?_, ?_⟩, ⟨?_, ?_⟩, ?_⟩
  · simp [BuildCodeExercises.extract_challenges_from_markdown, hsplit, ← htitles]
  · simp [BuildCodeChallenges.extract_challenges_from_markdown, hsplit, ← htitles]
  · simp [BuildCodeExercises.extract_challenges_from_markdown, hsplit, ← htitles,
      List.map_map, Function.comp, exSection_title]
  · simp [BuildCodeChallenges.extract_challenges_from_markdown, hsplit, ← htitles,
      List.map_map, Function.comp, chSection_title]
  · intro s hs
    simp only [BuildCodeExercises.extract_challenges_from_markdown,
      List.mem_map] at hs
    obtain ⟨sec, _, rfl⟩ := hs
    exact exSection_description_clean _ _

/-- C1 witness: the amended statement instantiated on `doc9` and its one
section. -/
theorem c1_section_count_order_witness :
    (BuildCodeExercises.extract_challenges_from_markdown doc9).2.length =
      ((splitLinesL doc9).filterMap challengeTitle?).length ∧
    containsSub pyFenceOpenL sec9.description = false :=
  ⟨(c1_section_count_order_and_clean_descriptions doc9).1.1,
   (c1_section_count_order_and_clean_descriptions doc9).2.2 sec9 (by decide)⟩

/-- C1 counterexample: on the document of spec §8.6,
`build_code_challenges.py` returns its one section with a description
that CONTAINS the opening fence `"```python"`, the closing fence
`"```"`, and the extracted code body — the replace of
`f"\n```python\n{code}\n```\n"` finds nothing because stripping the body
removed the newline after the final fence. -/
theorem c1_counterexample :
    (BuildCodeChallenges.extract_challenges_from_markdown doc9).2.map
        (fun s => containsSub pyFenceOpenL s.description &&
          containsSub fenceCloseL s.description &&
          containsSub s.code s.description) = [true] := by decide

/-- C2 (amended): the two `extract_challenges_from_markdown`
implementations agree on the header string and on the ordered lists of
titles and code strings, for every input document; they do NOT agree on
descriptions (see the counterexample), so they are not one reusable
behavior as claimed. -/
theorem c2_header_titles_codes_agree (content : List Char) :
    (BuildCodeExercises.extract_challenges_from_markdown content).1 =
      (BuildCodeChallenges.extract_challenges_from_markdown content).1 ∧
    (BuildCodeExercises.extract_challenges_from_markdown content).2.map
        ChallengeSection.title =
      (BuildCodeChallenges.extract_challenges_from_markdown content).2.map
        ChallengeSection.title ∧
    (BuildCodeExercises.extract_challenges_from_markdown content).2.map
        ChallengeSection.code =
      (BuildCodeChallenges.extract_challenges_from_markdown content).2.map
        ChallengeSection.code := by
  refine ⟨rfl, ?_, ?_⟩
  · simp [BuildCodeExercises.extract_challenges_from_markdown,
      BuildCodeChallenges.extract_challenges_from_markdown, List.map_map,
      Function.comp, exSection_title, chSection_title]
  · simp [BuildCodeExercises.extract_challenges_from_markdown,
      BuildCodeChallenges.extract_challenges_from_markdown, List.map_map,
      Function.comp, section_code_agree]

/-- C2 counterexample: on the document of spec §8.6 the two
implementations return different sections (the descriptions differ). -/
theorem c2_counterexample :
    BuildCodeExercises.extract_challenges_from_markdown doc9 ≠
      BuildCodeChallenges.extract_challenges_from_markdown doc9 := by decide

/-- C3 (amended): the claimed splitting rule holds for the two
`extract_challenges_from_markdown` splitters (`reSplitChallenge`
realises it: text before the first matching line is the header, a
matching line starts a section whose body is the run of following
non-matching lines).  It does NOT hold for `split_challenges` in
`generate_solutions.py`: that splitter starts a section at EVERY
`"## "`-prefixed line, whether or not it matches
`^## (Challenge \d+: .+)$`, and it DISCARDS the text before the first
heading instead of returning it as a header. -/
theorem c3_splitting_rule (ls pre : List (List Char))
    (hpre : ∀ l ∈ pre, GenerateSolutions.hhStop l = false) :
    reSplitChallenge ls = (ls.takeWhile noChallengeHd, sectionsFromSpec ls) ∧
    (GenerateSolutions.split_challenges ls).map Prod.fst =
      (ls.filter GenerateSolutions.hhStop).map (fun l => strip (l.drop 3)) ∧
    GenerateSolutions.split_challenges (pre ++ ls) =
      GenerateSolutions.split_challenges ls :=
  ⟨reSplitChallenge_eq_spec ls, split_challenges_headings ls,
   split_challenges_drop_head ls pre hpre⟩

/-- C3 witness: the amended statement evaluated on `docC3` with the
non-heading line `"intro"` prepended. -/
theorem c3_splitting_rule_witness :
    reSplitChallenge (splitLinesL docC3) =
        ((splitLinesL docC3).takeWhile noChallengeHd,
         sectionsFromSpec (splitLinesL docC3)) ∧
    (GenerateSolutions.split_challenges (splitLinesL docC3)).map Prod.fst =
      ((splitLinesL docC3).filter GenerateSolutions.hhStop).map
        (fun l => strip (l.drop 3)) ∧
    GenerateSolutions.split_challenges ([introLine] ++ splitLinesL docC3) =
      GenerateSolutions.split_challenges (splitLinesL docC3) :=
  c3_splitting_rule (splitLinesL docC3) [introLine] (by decide)

/-- C3 counterexample: in `docC3` no line matches
`^## (Challenge \d+: .+)$`, so under the claimed rule every splitter
should produce zero sections and return the whole text as the header;
but `split_challenges` produces one section (from the non-matching
heading `## Notes`) and the leading `"intro"` text appears nowhere in
its output. -/
theorem c3_counterexample :
    (splitLinesL docC3).filterMap challengeTitle? = [] ∧
    GenerateSolutions.split_challenges (splitLinesL docC3) =
      [(notesTitle, notesBody)] := by decide

/-- C9 (amended): the end-to-end document parses as claimed under
`build-code-exercises.py`; under `build_code_challenges.py` the header,
title and code are the same but the description retains the whole
fenced block (the `replace` misses because the stripped body does not
end in a newline). -/
theorem c9_end_to_end :
    BuildCodeExercises.extract_challenges_from_markdown doc9 = (week1Header, [sec9]) ∧
    BuildCodeChallenges.extract_challenges_from_markdown doc9 =
      (week1Header, [sec9ch]) := by decide

/-- C9 counterexample: `build_code_challenges.py` does not return the
claimed description on the end-to-end document. -/
theorem c9_counterexample :
    (BuildCodeChallenges.extract_challenges_from_markdown doc9).2.map
        ChallengeSection.description ≠ [sec9.description] := by decide

/-- C10: for a section body with an opening `"```python"` fence whose
remainder never contains a closing `"```"`, both implementations return
the empty code string, and `build-code-exercises.py` returns as
description exactly the trimmed text strictly before the opening fence. -/
theorem c10_unclosed_fence (title body before after : List Char)
    (hopen : splitOnFirst? pyFenceOpenL body = some (before, after))
    (hnoclose : splitOnFirst? fenceCloseL after = none) :
    (BuildCodeExercises.exSection title body).code = [] ∧
    (BuildCodeChallenges.chSection title body).code = [] ∧
    (BuildCodeExercises.exSection title body).description = strip before := by
  unfold BuildCodeExercises.exSection BuildCodeChallenges.chSection
  simp [hopen, codeFromTail, hnoclose]

/-- C10 witness: the unclosed-fence body `docC10body`. -/
theorem c10_unclosed_fence_witness :
    (BuildCodeExercises.exSection titleT docC10body).code = [] ∧
    (BuildCodeChallenges.chSection titleT docC10body).code = [] ∧
    (BuildCodeExercises.exSection titleT docC10body).description =
      strip beforeFenceC10 :=
  c10_unclosed_fence titleT docC10body beforeFenceC10 afterFenceC10
    (by decide) (by decide)

/-- C4: on any all-rate-limited response sequence, `correct_sample_code`
raises its terminal "Max retries reached" exception after exactly 10
rate-limited attempts (10 sleeps), so its retry loop terminates;
`generate_solution` enforces no such ceiling — it consumes every
rate-limited response, however many, and is still looping. -/
theorem c4_retry_ceiling (jit : Nat → ℚ) (rs : List Attempt)
    (hall : ∀ r ∈ rs, isRateLimited r = true) :
    (10 ≤ rs.length →
      (CorrectSampleCode.correctLoop jit 0 rs).result = .errMaxRetries ∧
      (CorrectSampleCode.correctLoop jit 0 rs).sleeps.length = 10) ∧
    (GenerateSolutions.generateLoop jit 0 rs).result = .exhausted ∧
    (GenerateSolutions.generateLoop jit 0 rs).sleeps.length = rs.length := by
  constructor
  · intro hlen
    rw [correctLoop_all429 jit rs 0 (by omega) hall]
    constructor
    · have h1 : ¬ (rs.length < 10 - 0) := by omega
      simp [h1]
    · simp
      omega
  · rw [generateLoop_all429 jit rs 0 hall]
    simp

/-- C4 witness: twelve consecutive 429 responses. -/
theorem c4_retry_ceiling_witness :
    (CorrectSampleCode.correctLoop jitZero 0 (List.replicate 12 rate429)).result =
        .errMaxRetries ∧
    (CorrectSampleCode.correctLoop jitZero 0 (List.replicate 12 rate429)).sleeps.length =
        10 ∧
    (GenerateSolutions.generateLoop jitZero 0 (List.replicate 12 rate429)).result =
        .exhausted ∧
    (GenerateSolutions.generateLoop jitZero 0 (List.replicate 12 rate429)).sleeps.length =
        (List.replicate 12 rate429).length := by
  have h := c4_retry_ceiling jitZero (List.replicate 12 rate429) (by decide)
  exact ⟨(h.1 (by decide)).1, (h.1 (by decide)).2, h.2.1, h.2.2⟩

/-- C5: on an all-rate-limited run, the n-th sleep (the delay before the
(n+2)-th attempt) equals `min(5 * 2^n, 60) + jit n` with the jitter in
[0, 1), in both loops (`correct_sample_code` capping at 10 sleeps), and
the attempt counter advances by exactly one per rate-limited failure. -/
theorem c5_backoff_formula (jit : Nat → ℚ) (rs : List Attempt)
    (hall : ∀ r ∈ rs, isRateLimited r = true)
    (hjit : ∀ n, 0 ≤ jit n ∧ jit n < 1) :
    (GenerateSolutions.generateLoop jit 0 rs).sleeps =
      (List.range rs.length).map (fun n => min ((5 : ℚ) * 2 ^ n) 60 + jit n) ∧
    (GenerateSolutions.generateLoop jit 0 rs).finalAttempt = rs.length ∧
    (CorrectSampleCode.correctLoop jit 0 rs).sleeps =
      (List.range (min rs.length 10)).map
        (fun n => min ((5 : ℚ) * 2 ^ n) 60 + jit n) ∧
    (CorrectSampleCode.correctLoop jit 0 rs).finalAttempt = min rs.length 10 ∧
    ∀ d ∈ (GenerateSolutions.generateLoop jit 0 rs).sleeps,
      ∃ n, min ((5 : ℚ) * 2 ^ n) 60 ≤ d ∧ d < min ((5 : ℚ) * 2 ^ n) 60 + 1 := by
  rw [generateLoop_all429 jit rs 0 hall, correctLoop_all429 jit rs 0 (by omega) hall]
  refine ⟨by simp [backoffDelay], by simp, by simp [backoffDelay], by simp, ?_⟩
  intro d hd
  simp only [List.mem_map, List.mem_range] at hd
  obtain ⟨i, _, rfl⟩ := hd
  refine ⟨i, ?_, ?_⟩
  · simp only [backoffDelay, Nat.zero_add]
    have := (hjit i).1
    linarith
  · simp only [backoffDelay, Nat.zero_add]
    have := (hjit i).2
    linarith

/-- C5 witness: three 429 responses with zero jitter. -/
theorem c5_backoff_formula_witness :
    (GenerateSolutions.generateLoop jitZero 0 (List.replicate 3 rate429)).sleeps =
      (List.range (List.replicate 3 rate429).length).map
        (fun n => min ((5 : ℚ) * 2 ^ n) 60 + jitZero n) ∧
    (GenerateSolutions.generateLoop jitZero 0 (List.replicate 3 rate429)).finalAttempt =
      (List.replicate 3 rate429).length := by
  have h := c5_backoff_formula jitZero (List.replicate 3 rate429) (by decide)
    (fun n => by constructor <;> norm_num [jitZero])
  exact ⟨h.1, h.2.1⟩

/-- C6: an `APIError` is classified as rate-limiting exactly when its
(truthy) message or status contains the token "429"; a rate-limited
error is retried (one backoff sleep, attempt counter incremented, loop
re-entered); any other `APIError`, and a response with an empty text
payload, propagates to the caller at once — no retry, no sleep, counter
unchanged — in both loops. -/
theorem c6_error_classification (jit : Nat → ℚ) (a : Nat)
    (m s : Option (List Char)) (rest : List Attempt) :
    (is429 m s = true ↔
      ((∃ mm, m = some mm ∧ mm ≠ [] ∧ List.IsInfix token429 mm) ∨
       (∃ ss, s = some ss ∧ ss ≠ [] ∧ List.IsInfix token429 ss))) ∧
    (is429 m s = true →
      GenerateSolutions.generateLoop jit a (.apiError m s :: rest) =
        ⟨(GenerateSolutions.generateLoop jit (a + 1) rest).result,
         backoffDelay a (jit a) ::
           (GenerateSolutions.generateLoop jit (a + 1) rest).sleeps,
         (GenerateSolutions.generateLoop jit (a + 1) rest).finalAttempt⟩) ∧
    (is429 m s = false →
      GenerateSolutions.generateLoop jit a (.apiError m s :: rest) =
        ⟨.errApi m s, [], a⟩ ∧
      CorrectSampleCode.correctLoop jit a (.apiError m s :: rest) =
        ⟨.errApi m s, [], a⟩) ∧
    (GenerateSolutions.generateLoop jit a (.success [] :: rest) =
        ⟨.errEmpty, [], a⟩ ∧
     CorrectSampleCode.correctLoop jit a (.success [] :: rest) =
        ⟨.errEmpty, [], a⟩) := by
  refine ⟨?_, ?_, ?_, ?_⟩
  · cases m with
    | none =>
      cases s with
      | none => simp [is429]
      | some ss => simp [is429, containsSub_iff, List.isEmpty_iff]
    | some mm =>
      cases s with
      | none => simp [is429, containsSub_iff, List.isEmpty_iff]
      | some ss => simp [is429, containsSub_iff, List.isEmpty_iff]
  · intro h
    simp [GenerateSolutions.generateLoop, h]
  · intro h
    constructor
    · simp [GenerateSolutions.generateLoop, h]
    · simp [CorrectSampleCode.correctLoop, h]
  · constructor
    · simp [GenerateSolutions.generateLoop]
    · simp [CorrectSampleCode.correctLoop]

/-- C6 witness: a 429 error is retried; a 500 error propagates at once. -/
theorem c6_error_classification_witness :
    GenerateSolutions.generateLoop jitZero 0 [Attempt.apiError (some token429) none] =
      ⟨.exhausted, [backoffDelay 0 (jitZero 0)], 1⟩ ∧
    GenerateSolutions.generateLoop jitZero 0 [Attempt.apiError (some msg500) none] =
      ⟨.errApi (some msg500) none, [], 0⟩ := by
  constructor
  · rw [(c6_error_classification jitZero 0 (some token429) none []).2.1 (by decide)]
    rfl
  · exact ((c6_error_classification jitZero 0 (some msg500) none []).2.2.1
      (by decide)).1

/-- C7: in `generate_solutions.main`, one section's generation failure is
substituted inline (`"Failed to generate solution: " ++ e`) and does not
abort the document: the output has one wrapped entry per section, in
section order, each depending only on its own section — regardless of
which sections fail. -/
theorem c7_per_section_failure_isolated
    (gen : List Char → List Char ⊕ List Char)
    (secs : List (List Char × List Char)) :
    (GenerateSolutions.buildSolutions gen secs).length = secs.length ∧
    ∀ (n : Nat) (h c : List Char), secs[n]? = some (h, c) →
      (GenerateSolutions.buildSolutions gen secs)[n]? =
        some (GenerateSolutions.wrapSolution h
          (GenerateSolutions.solutionText gen c)) := by
  induction secs with
  | nil =>
    refine ⟨rfl, ?_⟩
    intro n h c hn
    simp at hn
  | cons p rest ih =>
    obtain ⟨h0, c0⟩ := p
    refine ⟨by simpa [GenerateSolutions.buildSolutions] using ih.1, ?_⟩
    intro n h c hn
    cases n with
    | zero =>
      simp only [List.getElem?_cons_zero, Option.some.injEq, Prod.mk.injEq] at hn
      obtain ⟨rfl, rfl⟩ := hn
      simp [GenerateSolutions.buildSolutions]
    | succ k =>
      simp only [List.getElem?_cons_succ] at hn
      simpa [GenerateSolutions.buildSolutions] using ih.2 k h c hn

/-- C7 witness: with the middle of three sections failing, all three are
processed in order; the failing one carries the inline failure text. -/
theorem c7_per_section_failure_isolated_witness :
    (GenerateSolutions.buildSolutions genW secsW).length = secsW.length ∧
    (GenerateSolutions.buildSolutions genW secsW)[1]? =
      some (GenerateSolutions.wrapSolution h2Lit
        (GenerateSolutions.solutionText genW badLit)) :=
  ⟨(c7_per_section_failure_isolated genW secsW).1,
   (c7_per_section_failure_isolated genW secsW).2 1 h2Lit badLit (by decide)⟩

/-- C8: when the solution file for a challenge file already exists,
`generate_solutions.main` skips the file before splitting it or calling
the remote service: zero remote calls, and the solution file's contents
are left unchanged. -/
theorem c8_skip_existing_solution (gen : List Char → List Char ⊕ List Char)
    (oldSolution mdText : List Char) :
    GenerateSolutions.processMdFile gen true oldSolution mdText =
      (oldSolution, 0) := rfl
